import Mathlib

/-!
Verification development for the Zenodo release uploader
(scripts/deploy.py): a shallow embedding of the script's data model,
its Zenodo API client operations and the upload orchestrator, together
with theorems settling the specification's claims.

Modelling conventions:
* HTTP is embedded by passing each call's response (status code, typed
  body, and the textual body rendering that Python would interpolate
  via response.json()) as explicit inputs.
* Every operation returns the list of API calls it issued (its trace)
  paired with an Except value: Except.error models process termination
  (sys.exit) as well as an uncaught Python exception (KeyError,
  TypeError, AttributeError), either of which aborts the invocation.
* Python dicts are association lists; os.environ is an association
  list; the files written via GITHUB_ENV / GITHUB_OUTPUT are a
  function from path to the list of lines appended so far.
* datetime.today().strftime of the process clock is the opaque
  parameter today; os.path.abspath is elided by treating the archive
  argument as already absolute (both the existence check and the glob
  receive the same transformed string in the source).
-/

namespace ZenodoRelease

/-- Embedding of the fixed dictionary appended to metadata
related_identifiers by upload_metadata. -/
structure RelEntry where
  identifier : String
  relation : String
  resource_type : String
  scheme : String
deriving DecidableEq, Repr

/-- upload_metadata appends this entry for a given html_url
(relation isSupplementTo, resource_type software, scheme url). -/
def mkRelEntry (html_url : String) : RelEntry :=
  ⟨html_url, "isSupplementTo", "software", "url"⟩

/-- JSON values stored in a metadata mapping, restricted to the shapes
the script reads or writes: strings, and the related_identifiers list. -/
inductive JVal where
  | str : String → JVal
  | rels : List RelEntry → JVal
deriving DecidableEq, Repr

/-- Metadata mapping (a Python dict) as an association list. -/
abbrev Metadata := List (String × JVal)

/-- Dict membership test (the Python `in` operator on a dict). -/
def hasKey (m : Metadata) (k : String) : Bool :=
  match m with
  | [] => false
  | p :: rest => if p.1 = k then true else hasKey rest k

/-- Dict lookup: value of the first occurrence of the key, if any. -/
def getKey (m : Metadata) (k : String) : Option JVal :=
  match m with
  | [] => none
  | p :: rest => if p.1 = k then some p.2 else getKey rest k

/-- Dict assignment d[k] = v: overwrite the key if present, else append. -/
def setKey (m : Metadata) (k : String) (v : JVal) : Metadata :=
  if hasKey m k then m.map (fun p => if p.1 = k then (k, v) else p)
  else m ++ [(k, v)]

/-- Python dict.update: fold assignment over the overriding mapping. -/
def dictUpdate (m : Metadata) (overrides : Metadata) : Metadata :=
  overrides.foldl (fun acc p => setKey acc p.1 p.2) m

/-- Lookup in a string-valued association list (used for the links
mappings and for os.environ). -/
def getLink (links : List (String × String)) (k : String) : Option String :=
  match links with
  | [] => none
  | p :: rest => if p.1 = k then some p.2 else getLink rest k

/-- File descriptor attached to a deposition: filename plus its links
mapping (deletion goes through links self). -/
structure FileDesc where
  filename : String
  links : List (String × String)
deriving DecidableEq, Repr

/-- Deposition resource as the script reads it. The doi and conceptdoi
keys may be absent from the JSON object (Option none); submitted and
the other fields are read unguarded by the script. -/
structure Deposit where
  id : Nat
  doi : Option String
  conceptdoi : Option String
  submitted : Bool
  metadata : Metadata
  links : List (String × String)
  files : List FileDesc
deriving DecidableEq, Repr

/-- Every way the script terminates: each sys.exit call site is one
constructor carrying exactly the values interpolated into its message,
plus the uncaught Python exceptions the code can raise. -/
inductive Failure where
  | cannotQueryDepositions (status : Nat) (body : String)
  | troubleNewUpload (status : Nat) (body : String)
  | cannotFindDeposit (doi : String)
  | cannotCreateNewVersion (doi : String) (body : String)
  | cannotCreateDraft (doi : String) (body : String)
  | troubleUploadingArtifact (archive : String) (status : Nat)
  | troubleUploadingMetadata (status : Nat) (body : String)
  | issuePublishing (status : Nat) (body : String)
  | archiveMissing (path : String)
  | zenodoJsonRequired
  | keyError (key : String)
  | attributeError
  | typeErrorOpenNone
deriving DecidableEq, Repr

/-- HTTP status code interpolated into the termination message, when
the corresponding format string includes one. -/
def Failure.statusIn : Failure → Option Nat
  | .cannotQueryDepositions s _ => some s
  | .troubleNewUpload s _ => some s
  | .troubleUploadingArtifact _ s => some s
  | .troubleUploadingMetadata s _ => some s
  | .issuePublishing s _ => some s
  | _ => none

/-- Response body interpolated into the termination message, when the
corresponding format string includes one. -/
def Failure.bodyIn : Failure → Option String
  | .cannotQueryDepositions _ b => some b
  | .troubleNewUpload _ b => some b
  | .cannotCreateNewVersion _ b => some b
  | .cannotCreateDraft _ b => some b
  | .troubleUploadingMetadata _ b => some b
  | .issuePublishing _ b => some b
  | _ => none

/-- Host selection of Zenodo.set_host: host starts as zenodo.org and
becomes sandbox.zenodo.org when sandbox is requested. -/
def set_host (sandbox : Bool) : String :=
  if sandbox then "sandbox.zenodo.org" else "zenodo.org"

/-- Test of url.startswith on the http scheme, computed over the
character list so that it evaluates by reduction. -/
def startsWithHttp (u : String) : Bool :=
  u.data.take 4 = ['h', 't', 't', 'p']

/-- URL resolution of the get/post wrappers: a non-http-prefixed path
is prefixed with https and the configured host. -/
def resolveUrl (host url : String) : String :=
  if startsWithHttp url then url else "https://" ++ host ++ url

/-- URL that Zenodo.new_doi posts to, written literally in the source
(it does not go through the post wrapper). -/
def new_doi_url : String := "https://zenodo.org/api/deposit/depositions"

/-- URL that Zenodo.upload_metadata puts to, written literally in the
source with the upload id appended (it does not use the host field). -/
def upload_metadata_url (id : Nat) : String :=
  "https://zenodo.org/api/deposit/depositions/" ++ toString id

/-- Host component of an https URL: the characters between the scheme
separator (8 characters of https scheme prefix) and the next slash,
computed over the character list so that it evaluates by reduction. -/
def urlHost (u : String) : String :=
  ⟨(u.data.drop 8).takeWhile (fun c => c ≠ '/')⟩

/-- Accepted statuses of the listing, creation, new-version, draft and
file-upload calls (the literal membership test status in 200, 201). -/
def statusOk2 (s : Nat) : Bool := s = 200 ∨ s = 201

/-- Accepted statuses of the publish call (200, 201 or 202). -/
def statusOkPublish (s : Nat) : Bool := s = 200 ∨ s = 201 ∨ s = 202

/-- Accepted statuses of one file deletion (200 or 204). -/
def statusOkDelete (s : Nat) : Bool := s = 200 ∨ s = 204

/-- An HTTP response: status code, parsed body, and the text that
response.json() renders into error messages. -/
structure Resp (α : Type) where
  status : Nat
  body : α
  bodyText : String
deriving Repr

/-- One issued HTTP request, recorded in an operation's trace. -/
inductive ApiCall where
  | listDepositions
  | newDeposition (url : String)
  | newVersion (url : String)
  | getDraft (url : String)
  | deleteFile (url : String)
  | putFile (url : String) (path : String)
  | putMetadata (url : String)
  | publishPost (url : String)
deriving DecidableEq, Repr

/-- Whether a recorded call is a file upload (a bucket put). -/
def ApiCall.isUpload : ApiCall → Bool
  | .putFile _ _ => true
  | _ => false

/-- Whether a recorded call is the publish post. -/
def ApiCall.isPublishCall : ApiCall → Bool
  | .publishPost _ => true
  | _ => false

/-- Whether a recorded call is a new-version post. -/
def ApiCall.isNewVersionCall : ApiCall → Bool
  | .newVersion _ => true
  | _ => false

/-- Paths uploaded according to a trace. -/
def uploadedPaths (tr : List ApiCall) : List String :=
  tr.filterMap (fun c => match c with | ApiCall.putFile _ p => some p | _ => none)

/-- Zenodo.get_depositions: list depositions, terminate on a status
outside 200/201 with the status and body in the message. -/
def get_depositions_op (resp : Resp (List Deposit)) :
    List ApiCall × Except Failure (List Deposit) :=
  ([ApiCall.listDepositions],
    if statusOk2 resp.status then Except.ok resp.body
    else Except.error (Failure.cannotQueryDepositions resp.status resp.bodyText))

/-- Linear scan of Zenodo.find_deposit: a deposition without a doi key
is skipped; otherwise its conceptdoi key is read unguarded (KeyError
when absent) and compared against the requested doi; first match wins. -/
def find_scan (deposits : List Deposit) (doi : String) :
    Except Failure (Option Deposit) :=
  match deposits with
  | [] => Except.ok none
  | d :: rest =>
    if d.doi.isNone then find_scan rest doi
    else
      match d.conceptdoi with
      | none => Except.error (Failure.keyError "conceptdoi")
      | some c => if c = doi then Except.ok (some d) else find_scan rest doi

/-- Zenodo.new_doi: posts to the literal production URL and terminates
on a status outside 200/201 with status and body in the message. -/
def new_doi_op (resp : Resp Deposit) : List ApiCall × Except Failure Deposit :=
  ([ApiCall.newDeposition new_doi_url],
    if statusOk2 resp.status then Except.ok resp.body
    else Except.error (Failure.troubleNewUpload resp.status resp.bodyText))

/-- New-version post inside Zenodo.update_doi: terminates on a status
outside 200/201 with the doi and the response body (no status code) in
the message. -/
def newversion_op (doi url : String) (resp : Resp Deposit) :
    List ApiCall × Except Failure Deposit :=
  ([ApiCall.newVersion url],
    if statusOk2 resp.status then Except.ok resp.body
    else Except.error (Failure.cannotCreateNewVersion doi resp.bodyText))

/-- Latest-draft get inside Zenodo.update_doi: terminates on a status
outside 200/201 with the doi and the response body (no status code) in
the message. -/
def draft_fetch_op (doi url : String) (resp : Resp Deposit) :
    List ApiCall × Except Failure Deposit :=
  ([ApiCall.getDraft url],
    if statusOk2 resp.status then Except.ok resp.body
    else Except.error (Failure.cannotCreateDraft doi resp.bodyText))

/-- File-deletion loop at the end of Zenodo.update_doi: every file is
deleted via its links self URL; a status outside 200/204 only logs the
filename and continues. A file descriptor without a links self key
would raise KeyError. -/
def clear_files (files : List FileDesc) (delStatus : String → Nat) :
    List ApiCall × Except Failure (List String) :=
  match files with
  | [] => ([], Except.ok [])
  | f :: rest =>
    match getLink f.links "self" with
    | none => ([], Except.error (Failure.keyError "self"))
    | some url =>
      match clear_files rest delStatus with
      | (tr, Except.error e) => (ApiCall.deleteFile url :: tr, Except.error e)
      | (tr, Except.ok logged) =>
        (ApiCall.deleteFile url :: tr,
          Except.ok (if statusOkDelete (delStatus url) then logged
                     else f.filename :: logged))

/-- Zenodo.update_doi: find the deposit by conceptdoi (terminating with
the cannot-find message when absent); when it is not submitted the
deposit itself becomes the working draft with no new-version call,
otherwise its newversion link is posted; in both cases the draft's
latest_draft link is then fetched and every file of the fetched draft
is deleted; the fetched draft is returned. -/
def update_doi (listResp : Resp (List Deposit)) (nvResp draftResp : Resp Deposit)
    (delStatus : String → Nat) (doi : String) :
    List ApiCall × Except Failure Deposit :=
  match get_depositions_op listResp with
  | (tr0, Except.error e) => (tr0, Except.error e)
  | (tr0, Except.ok deposits) =>
    match find_scan deposits doi with
    | Except.error e => (tr0, Except.error e)
    | Except.ok none => (tr0, Except.error (Failure.cannotFindDeposit doi))
    | Except.ok (some target) =>
      match (if target.submitted = false then ([], Except.ok target)
             else match getLink target.links "newversion" with
               | none => ([], Except.error (Failure.keyError "newversion"))
               | some nv => newversion_op doi nv nvResp :
             List ApiCall × Except Failure Deposit) with
      | (tr1, Except.error e) => (tr0 ++ tr1, Except.error e)
      | (tr1, Except.ok draft) =>
        match getLink draft.links "latest_draft" with
        | none => (tr0 ++ tr1, Except.error (Failure.keyError "latest_draft"))
        | some ld =>
          match draft_fetch_op doi ld draftResp with
          | (tr2, Except.error e) => (tr0 ++ tr1 ++ tr2, Except.error e)
          | (tr2, Except.ok new_version) =>
            match clear_files new_version.files delStatus with
            | (tr3, Except.error e) => (tr0 ++ tr1 ++ tr2 ++ tr3, Except.error e)
            | (tr3, Except.ok _logged) =>
              (tr0 ++ tr1 ++ tr2 ++ tr3, Except.ok new_version)

/-- os.path.basename: the component after the last slash, computed
over the character list so that it evaluates by reduction. -/
def basename (p : String) : String :=
  ⟨(p.data.reverse.takeWhile (fun c => c ≠ '/')).reverse⟩

/-- Zenodo.upload_archive: put the file to the bucket URL joined with
the file's basename; a status outside 200/201 terminates with the
archive path and status code (no response body) in the message. -/
def upload_archive_file (upload : Deposit) (archive : String)
    (uploadStatus : String → Nat) : List ApiCall × Except Failure Unit :=
  match getLink upload.links "bucket" with
  | none => ([], Except.error (Failure.keyError "bucket"))
  | some bucket =>
    let url := bucket ++ "/" ++ basename archive
    ([ApiCall.putFile url archive],
      if statusOk2 (uploadStatus url) then Except.ok ()
      else Except.error (Failure.troubleUploadingArtifact archive (uploadStatus url)))

/-- Upload loop of the orchestrator: upload each glob match in order. -/
def upload_all (upload : Deposit) (paths : List String)
    (uploadStatus : String → Nat) : List ApiCall × Except Failure Unit :=
  match paths with
  | [] => ([], Except.ok ())
  | p :: rest =>
    match upload_archive_file upload p uploadStatus with
    | (tr, Except.error e) => (tr, Except.error e)
    | (tr, Except.ok _) =>
      match upload_all upload rest uploadStatus with
      | (tr2, r2) => (tr ++ tr2, r2)

/-- setdefault plus append on metadata related_identifiers: create the
list when the key is absent, append when it holds a list, and raise
AttributeError when it holds a non-list value. -/
def appendRelated (m : Metadata) (html_url : String) : Except Failure Metadata :=
  match getKey m "related_identifiers" with
  | none => Except.ok (setKey m "related_identifiers" (JVal.rels [mkRelEntry html_url]))
  | some (JVal.rels l) =>
    Except.ok (setKey m "related_identifiers" (JVal.rels (l ++ [mkRelEntry html_url])))
  | some (JVal.str _) => Except.error Failure.attributeError

/-- Merge step of Zenodo.upload_metadata: when a template document was
given, dict.update the deposition's metadata with it. -/
def mergedMetadata (metadata0 : Metadata) (template : Option Metadata) : Metadata :=
  match template with
  | some t => dictUpdate metadata0 t
  | none => metadata0

/-- Fixed fields of Zenodo.upload_metadata, applied after the merge in
source order: set version, set publication_date to the clock's date
string, then default upload_type to software when absent. -/
def fixedFields (m : Metadata) (version today : String) : Metadata :=
  let m2 := setKey m "version" (JVal.str version)
  let m3 := setKey m2 "publication_date" (JVal.str today)
  if hasKey m3 "upload_type" then m3
  else setKey m3 "upload_type" (JVal.str "software")

/-- Title and description overrides of Zenodo.upload_metadata: set
title when given; set description from the literal text when given,
else from the description file's contents when a file was given. -/
def descTitleFields (m5 : Metadata)
    (title description description_file : Option String) : Metadata :=
  let m6 := match title with
    | some t => setKey m5 "title" (JVal.str t)
    | none => m5
  match description with
  | some d => setKey m6 "description" (JVal.str d)
  | none => match description_file with
    | some c => setKey m6 "description" (JVal.str c)
    | none => m6

/-- Pure metadata computation of Zenodo.upload_metadata, in source
order: merge the template document into the existing metadata, apply
the fixed fields, append a related identifier for html_url when given,
then apply the title and description overrides. -/
def compute_metadata (metadata0 : Metadata) (template : Option Metadata)
    (version today : String)
    (html_url title description description_file : Option String) :
    Except Failure Metadata :=
  let m4 := fixedFields (mergedMetadata metadata0 template) version today
  match (match html_url with
         | some u => appendRelated m4 u
         | none => Except.ok m4) with
  | Except.error e => Except.error e
  | Except.ok m5 => Except.ok (descTitleFields m5 title description description_file)

/-- Zenodo.upload_metadata: compute the merged metadata, put it to the
literal production depositions URL for the upload's id, and terminate
on a status other than 200 with status and body in the message. -/
def upload_metadata_op (upload : Deposit) (template : Option Metadata)
    (version today : String)
    (html_url title description description_file : Option String)
    (resp : Resp Deposit) : List ApiCall × Except Failure Deposit :=
  match compute_metadata upload.metadata template version today
        html_url title description description_file with
  | Except.error e => ([], Except.error e)
  | Except.ok _m =>
    ([ApiCall.putMetadata (upload_metadata_url upload.id)],
      if resp.status = 200 then Except.ok resp.body
      else Except.error (Failure.troubleUploadingMetadata resp.status resp.bodyText))

/-- State of the files reachable through GITHUB_ENV / GITHUB_OUTPUT:
each path maps to the lines appended so far. -/
abbrev GFiles := String → List String

/-- Opening a path in append mode and writing one line. -/
def appendLine (gfs : GFiles) (path line : String) : GFiles :=
  fun q => if q = path then gfs path ++ [line] else gfs q

/-- One iteration of set_env_and_output: os.environ.get may return
None, and open(None, append) raises TypeError; otherwise the KEY=VALUE
line is appended to the named file. -/
def write_env_file (env : List (String × String)) (gfs : GFiles)
    (var name value : String) : Except Failure GFiles :=
  match getLink env var with
  | none => Except.error Failure.typeErrorOpenNone
  | some path => Except.ok (appendLine gfs path (name ++ "=" ++ value))

/-- set_env_and_output: write the pair to the GITHUB_ENV file, then to
the GITHUB_OUTPUT file. -/
def set_env_and_output (env : List (String × String)) (gfs : GFiles)
    (name value : String) : Except Failure GFiles :=
  match write_env_file env gfs "GITHUB_ENV" name value with
  | Except.error e => Except.error e
  | Except.ok g2 => write_env_file env g2 "GITHUB_OUTPUT" name value

/-- Loop of Zenodo.publish over the published record's links items,
emitting each pair through set_env_and_output. -/
def write_links (env : List (String × String)) (links : List (String × String))
    (gfs : GFiles) : Except Failure GFiles :=
  match links with
  | [] => Except.ok gfs
  | (k, v) :: rest =>
    match set_env_and_output env gfs k v with
    | Except.error e => Except.error e
    | Except.ok g2 => write_links env rest g2

/-- Zenodo.publish: post the publish link; a status outside
200/201/202 terminates with status and body in the message; on success
every links pair of the published record is emitted. -/
def publish_op (data : Deposit) (resp : Resp Deposit)
    (env : List (String × String)) (gfs : GFiles) :
    List ApiCall × Except Failure GFiles :=
  match getLink data.links "publish" with
  | none => ([], Except.error (Failure.keyError "publish"))
  | some url =>
    ([ApiCall.publishPost url],
      if statusOkPublish resp.status then write_links env resp.body.links gfs
      else Except.error (Failure.issuePublishing resp.status resp.bodyText))

/-- External world of one invocation: the filesystem predicates and
every HTTP response the run may consume, plus os.environ and the clock. -/
structure World where
  pathExists : String → Bool
  glob : String → List String
  listResp : Resp (List Deposit)
  nvResp : Resp Deposit
  draftResp : Resp Deposit
  delStatus : String → Nat
  uploadStatus : String → Nat
  newDoiResp : Resp Deposit
  metaResp : Resp Deposit
  pubResp : Resp Deposit
  env : List (String × String)
  today : String

/-- Draft-acquisition step of the orchestrator: update_doi when a doi
was given; otherwise a template is required and a new deposition is
created. -/
def obtain_draft (w : World) (template : Option Metadata) (doi : Option String) :
    List ApiCall × Except Failure Deposit :=
  match doi with
  | some d => update_doi w.listResp w.nvResp w.draftResp w.delStatus d
  | none => match template with
    | none => ([], Except.error Failure.zenodoJsonRequired)
    | some _ => new_doi_op w.newDoiResp

/-- Orchestrator upload_archive: terminate when the archive path does
not exist; obtain the draft via update_doi when a doi was given, else
require a template and create a new deposition; upload every glob
match of the archive argument; put the metadata; publish. -/
def upload_archive_cmd (w : World) (gfs : GFiles) (archive version : String)
    (template : Option Metadata)
    (doi html_url title description description_file : Option String) :
    List ApiCall × Except Failure GFiles :=
  if w.pathExists archive = false then
    ([], Except.error (Failure.archiveMissing archive))
  else
    match obtain_draft w template doi with
    | (tr1, Except.error e) => (tr1, Except.error e)
    | (tr1, Except.ok upload) =>
      match upload_all upload (w.glob archive) w.uploadStatus with
      | (tr2, Except.error e) => (tr1 ++ tr2, Except.error e)
      | (tr2, Except.ok _) =>
        match upload_metadata_op upload template version w.today
              html_url title description description_file w.metaResp with
        | (tr3, Except.error e) => (tr1 ++ tr2 ++ tr3, Except.error e)
        | (tr3, Except.ok data) =>
          match publish_op data w.pubResp w.env gfs with
          | (tr4, r4) => (tr1 ++ tr2 ++ tr3 ++ tr4, r4)


/-! Helper lemmas about the dict model. -/

theorem hasKey_eq_isSome (m : Metadata) (k : String) :
    hasKey m k = (getKey m k).isSome := by
  induction m with
  | nil => simp [hasKey, getKey]
  | cons p rest ih =>
    by_cases hp : p.1 = k
    · simp [hasKey, getKey, hp]
    · simp [hasKey, getKey, hp, ih]

theorem getKey_map_overwrite (m : Metadata) (k : String) (v : JVal) :
    getKey (m.map (fun p => if p.1 = k then (k, v) else p)) k
      = if hasKey m k then some v else none := by
  induction m with
  | nil => simp [getKey, hasKey]
  | cons p rest ih =>
    by_cases hp : p.1 = k
    · simp [getKey, hasKey, hp]
    · simp [getKey, hasKey, hp, ih]

theorem getKey_map_overwrite_ne (m : Metadata) (v : JVal) {k k2 : String} (h : k ≠ k2) :
    getKey (m.map (fun p => if p.1 = k then (k, v) else p)) k2 = getKey m k2 := by
  induction m with
  | nil => simp [getKey]
  | cons p rest ih =>
    by_cases hp : p.1 = k
    · simp [getKey, hp, h, ih]
    · simp [getKey, hp, ih]

theorem getKey_append_single (m : Metadata) (k : String) (v : JVal) (h : getKey m k = none) :
    getKey (m ++ [(k, v)]) k = some v := by
  induction m with
  | nil => simp [getKey]
  | cons p rest ih =>
    by_cases hp : p.1 = k
    · simp [getKey, hp] at h
    · simp [getKey, hp] at h ⊢
      exact ih h

theorem getKey_append_single_ne (m : Metadata) (v : JVal) {k k2 : String} (h : k ≠ k2) :
    getKey (m ++ [(k, v)]) k2 = getKey m k2 := by
  induction m with
  | nil => simp [getKey, h]
  | cons p rest ih =>
    by_cases hp : p.1 = k2
    · simp [getKey, hp]
    · simp [getKey, hp, ih]

theorem getKey_setKey_self (m : Metadata) (k : String) (v : JVal) :
    getKey (setKey m k v) k = some v := by
  unfold setKey
  by_cases h : hasKey m k
  · simp [h, getKey_map_overwrite]
  · have hnone : getKey m k = none := by
      rw [hasKey_eq_isSome] at h
      cases hg : getKey m k with
      | none => rfl
      | some v0 => rw [hg] at h; simp at h
    simp [h, getKey_append_single _ _ _ hnone]

theorem getKey_setKey_ne (m : Metadata) (v : JVal) {k k2 : String} (h : k ≠ k2) :
    getKey (setKey m k v) k2 = getKey m k2 := by
  unfold setKey
  by_cases hh : hasKey m k
  · simp [hh, getKey_map_overwrite_ne _ _ h]
  · simp [hh, getKey_append_single_ne _ _ h]

theorem hasKey_setKey_ne (m : Metadata) (v : JVal) {k k2 : String} (h : k ≠ k2) :
    hasKey (setKey m k v) k2 = hasKey m k2 := by
  rw [hasKey_eq_isSome, hasKey_eq_isSome, getKey_setKey_ne _ _ h]

end ZenodoRelease

namespace ZenodoRelease

theorem fixedFields_version (m : Metadata) (version today : String) :
    getKey (fixedFields m version today) "version" = some (JVal.str version) := by
  unfold fixedFields
  cases hck : hasKey (setKey (setKey m "version" (JVal.str version)) "publication_date" (JVal.str today)) "upload_type" with
  | true =>
    simp only [hck, if_true]
    rw [getKey_setKey_ne _ _ (by decide : "publication_date" ≠ "version"), getKey_setKey_self]
  | false =>
    simp [hck]
    rw [getKey_setKey_ne _ _ (by decide : "upload_type" ≠ "version"),
      getKey_setKey_ne _ _ (by decide : "publication_date" ≠ "version"), getKey_setKey_self]

theorem fixedFields_pubdate (m : Metadata) (version today : String) :
    getKey (fixedFields m version today) "publication_date" = some (JVal.str today) := by
  unfold fixedFields
  cases hck : hasKey (setKey (setKey m "version" (JVal.str version)) "publication_date" (JVal.str today)) "upload_type" with
  | true =>
    simp only [hck, if_true]
    rw [getKey_setKey_self]
  | false =>
    simp [hck]
    rw [getKey_setKey_ne _ _ (by decide : "upload_type" ≠ "publication_date"), getKey_setKey_self]

theorem fixedFields_upload_type_absent (m : Metadata) (version today : String)
    (h : hasKey m "upload_type" = false) :
    getKey (fixedFields m version today) "upload_type" = some (JVal.str "software") := by
  unfold fixedFields
  have h3 : hasKey (setKey (setKey m "version" (JVal.str version)) "publication_date" (JVal.str today)) "upload_type" = false := by
    rw [hasKey_setKey_ne _ _ (by decide : "publication_date" ≠ "upload_type"),
      hasKey_setKey_ne _ _ (by decide : "version" ≠ "upload_type")]
    exact h
  simp [h3]
  rw [getKey_setKey_self]

theorem fixedFields_upload_type_present (m : Metadata) (version today : String) (v : JVal)
    (h : getKey m "upload_type" = some v) :
    getKey (fixedFields m version today) "upload_type" = some v := by
  unfold fixedFields
  have hg : getKey (setKey (setKey m "version" (JVal.str version)) "publication_date" (JVal.str today)) "upload_type" = some v := by
    rw [getKey_setKey_ne _ _ (by decide : "publication_date" ≠ "upload_type"),
      getKey_setKey_ne _ _ (by decide : "version" ≠ "upload_type")]
    exact h
  have h3 : hasKey (setKey (setKey m "version" (JVal.str version)) "publication_date" (JVal.str today)) "upload_type" = true := by
    rw [hasKey_eq_isSome, hg]; rfl
  simp only [h3, if_true]
  exact hg

theorem appendRelated_getKey_ne (m : Metadata) (u : String) (m5 : Metadata) {k : String}
    (hk : k ≠ "related_identifiers") (h : appendRelated m u = Except.ok m5) :
    getKey m5 k = getKey m k := by
  unfold appendRelated at h
  cases hg : getKey m "related_identifiers" with
  | none =>
    rw [hg] at h
    cases h
    rw [getKey_setKey_ne _ _ (Ne.symm hk)]
  | some jv =>
    rw [hg] at h
    cases jv with
    | str s => cases h
    | rels l =>
      cases h
      rw [getKey_setKey_ne _ _ (Ne.symm hk)]

theorem descTitleFields_getKey_ne (m5 : Metadata) (t d df : Option String) {k : String}
    (h1 : k ≠ "title") (h2 : k ≠ "description") :
    getKey (descTitleFields m5 t d df) k = getKey m5 k := by
  unfold descTitleFields
  cases t <;> cases d <;> cases df <;>
    simp only [] <;>
    (try rw [getKey_setKey_ne _ _ (Ne.symm h2)]) <;>
    (try rw [getKey_setKey_ne _ _ (Ne.symm h1)])

theorem compute_metadata_getKey_ne (metadata0 : Metadata) (template : Option Metadata)
    (version today : String) (html_url title description description_file : Option String)
    (m : Metadata) {k : String}
    (hk1 : k ≠ "related_identifiers") (hk2 : k ≠ "title") (hk3 : k ≠ "description")
    (h : compute_metadata metadata0 template version today html_url title description description_file
          = Except.ok m) :
    getKey m k = getKey (fixedFields (mergedMetadata metadata0 template) version today) k := by
  unfold compute_metadata at h
  cases html_url with
  | none =>
    simp only [] at h
    cases h
    rw [descTitleFields_getKey_ne _ _ _ _ hk2 hk3]
  | some u =>
    simp only [] at h
    cases hap : appendRelated (fixedFields (mergedMetadata metadata0 template) version today) u with
    | error e => rw [hap] at h; cases h
    | ok m5 =>
      rw [hap] at h
      cases h
      rw [descTitleFields_getKey_ne _ _ _ _ hk2 hk3,
        appendRelated_getKey_ne _ _ _ hk1 hap]

end ZenodoRelease

namespace ZenodoRelease

theorem compute_metadata_shape (metadata0 : Metadata) (template : Option Metadata)
    (version today : String) (html_url title description description_file : Option String)
    (m : Metadata)
    (h : compute_metadata metadata0 template version today html_url title description description_file
          = Except.ok m) :
    ∃ m5, m = descTitleFields m5 title description description_file := by
  unfold compute_metadata at h
  cases html_url with
  | none =>
    simp only [] at h
    cases h
    exact ⟨_, rfl⟩
  | some u =>
    simp only [] at h
    cases hap : appendRelated (fixedFields (mergedMetadata metadata0 template) version today) u with
    | error e => rw [hap] at h; cases h
    | ok m5 => rw [hap] at h; cases h; exact ⟨m5, rfl⟩

theorem descTitleFields_title (m5 : Metadata) (t : String) (d df : Option String) :
    getKey (descTitleFields m5 (some t) d df) "title" = some (JVal.str t) := by
  unfold descTitleFields
  cases d <;> cases df <;>
    simp only [] <;>
    (try rw [getKey_setKey_ne _ _ (by decide : "description" ≠ "title")]) <;>
    rw [getKey_setKey_self]

theorem descTitleFields_desc_literal (m5 : Metadata) (t df : Option String) (d : String) :
    getKey (descTitleFields m5 t (some d) df) "description" = some (JVal.str d) := by
  unfold descTitleFields
  cases t <;> simp only [] <;> rw [getKey_setKey_self]

theorem descTitleFields_desc_file (m5 : Metadata) (t : Option String) (c : String) :
    getKey (descTitleFields m5 t none (some c)) "description" = some (JVal.str c) := by
  unfold descTitleFields
  cases t <;> simp only [] <;> rw [getKey_setKey_self]

/-- C6: in update_metadata the template overrides are merged into the
existing metadata first; afterwards version is the given value,
publication_date is the clock's date string, and upload_type defaults
to software exactly when it is absent from the merged mapping. -/
theorem C6_metadata_merge_order (metadata0 template : Metadata)
    (version today : String) (html_url title description description_file : Option String)
    (m : Metadata)
    (h : compute_metadata metadata0 (some template) version today html_url title description description_file
          = Except.ok m) :
    getKey m "version" = some (JVal.str version) ∧
    getKey m "publication_date" = some (JVal.str today) ∧
    (hasKey (dictUpdate metadata0 template) "upload_type" = false →
      getKey m "upload_type" = some (JVal.str "software")) ∧
    (∀ v, getKey (dictUpdate metadata0 template) "upload_type" = some v →
      getKey m "upload_type" = some v) := by
  have hne : ∀ k2 : String, k2 ≠ "related_identifiers" → k2 ≠ "title" → k2 ≠ "description" →
      getKey m k2 = getKey (fixedFields (dictUpdate metadata0 template) version today) k2 := by
    intro k2 a b c
    have hx := compute_metadata_getKey_ne metadata0 (some template) version today
      html_url title description description_file m a b c h
    simpa [mergedMetadata] using hx
  refine ⟨?_, ?_, ?_, ?_⟩
  · rw [hne "version" (by decide) (by decide) (by decide), fixedFields_version]
  · rw [hne "publication_date" (by decide) (by decide) (by decide), fixedFields_pubdate]
  · intro hab
    rw [hne "upload_type" (by decide) (by decide) (by decide)]
    exact fixedFields_upload_type_absent _ _ _ hab
  · intro v hv
    rw [hne "upload_type" (by decide) (by decide) (by decide)]
    exact fixedFields_upload_type_present _ _ _ _ hv

/-- C6 witness: a concrete run of the metadata computation. -/
theorem C6_metadata_merge_order_witness :
    getKey [("title", JVal.str "Old"), ("description", JVal.str "T"),
      ("version", JVal.str "1.2.3"), ("publication_date", JVal.str "2026-10-12"),
      ("upload_type", JVal.str "software")] "version" = some (JVal.str "1.2.3") ∧
    getKey [("title", JVal.str "Old"), ("description", JVal.str "T"),
      ("version", JVal.str "1.2.3"), ("publication_date", JVal.str "2026-10-12"),
      ("upload_type", JVal.str "software")] "publication_date" = some (JVal.str "2026-10-12") ∧
    getKey [("title", JVal.str "Old"), ("description", JVal.str "T"),
      ("version", JVal.str "1.2.3"), ("publication_date", JVal.str "2026-10-12"),
      ("upload_type", JVal.str "software")] "upload_type" = some (JVal.str "software") := by
  have h := C6_metadata_merge_order [("title", JVal.str "Old")] [("description", JVal.str "T")]
    "1.2.3" "2026-10-12" none none none none _ rfl
  exact ⟨h.1, h.2.1, h.2.2.1 (by decide)⟩

/-- C8: an explicit title overrides the merged title; a literal
description wins over a description file, whose contents are used only
when the literal text is absent. -/
theorem C8_title_description_override (metadata0 : Metadata) (template : Option Metadata)
    (version today : String) (html_url : Option String)
    (t d c : String) (dOpt dfOpt tOpt : Option String) (m1 m2 m3 : Metadata) :
    (compute_metadata metadata0 template version today html_url (some t) dOpt dfOpt = Except.ok m1 →
      getKey m1 "title" = some (JVal.str t)) ∧
    (compute_metadata metadata0 template version today html_url tOpt (some d) (some c) = Except.ok m2 →
      getKey m2 "description" = some (JVal.str d)) ∧
    (compute_metadata metadata0 template version today html_url tOpt none (some c) = Except.ok m3 →
      getKey m3 "description" = some (JVal.str c)) := by
  refine ⟨?_, ?_, ?_⟩
  · intro h
    obtain ⟨m5, rfl⟩ := compute_metadata_shape _ _ _ _ _ _ _ _ _ h
    exact descTitleFields_title _ _ _ _
  · intro h
    obtain ⟨m5, rfl⟩ := compute_metadata_shape _ _ _ _ _ _ _ _ _ h
    exact descTitleFields_desc_literal _ _ _ _
  · intro h
    obtain ⟨m5, rfl⟩ := compute_metadata_shape _ _ _ _ _ _ _ _ _ h
    exact descTitleFields_desc_file _ _ _

/-- C8 witness: concrete runs with both overrides supplied. -/
theorem C8_title_description_override_witness :
    getKey [("version", JVal.str "1.0"), ("publication_date", JVal.str "2026-10-12"),
      ("upload_type", JVal.str "software"), ("title", JVal.str "T"),
      ("description", JVal.str "D")] "title" = some (JVal.str "T") ∧
    getKey [("version", JVal.str "1.0"), ("publication_date", JVal.str "2026-10-12"),
      ("upload_type", JVal.str "software"), ("title", JVal.str "T"),
      ("description", JVal.str "D")] "description" = some (JVal.str "D") ∧
    getKey [("version", JVal.str "1.0"), ("publication_date", JVal.str "2026-10-12"),
      ("upload_type", JVal.str "software"), ("title", JVal.str "T"),
      ("description", JVal.str "F")] "description" = some (JVal.str "F") := by
  have h := C8_title_description_override [] none "1.0" "2026-10-12" none "T" "D" "F"
    (some "D") (some "F") (some "T")
    [("version", JVal.str "1.0"), ("publication_date", JVal.str "2026-10-12"),
      ("upload_type", JVal.str "software"), ("title", JVal.str "T"), ("description", JVal.str "D")]
    [("version", JVal.str "1.0"), ("publication_date", JVal.str "2026-10-12"),
      ("upload_type", JVal.str "software"), ("title", JVal.str "T"), ("description", JVal.str "D")]
    [("version", JVal.str "1.0"), ("publication_date", JVal.str "2026-10-12"),
      ("upload_type", JVal.str "software"), ("title", JVal.str "T"), ("description", JVal.str "F")]
  exact ⟨h.1 rfl, h.2.1 rfl, h.2.2 rfl⟩

end ZenodoRelease

namespace ZenodoRelease

/-- C10 counterexample: the scan can be total although a doi-carrying
deposition without a conceptdoi key is in the listing, because the
first match precedes it; the claimed necessity of the precondition is
false. -/
theorem C10_counterexample :
    find_scan [⟨1, some "10.5/a.v1", some "10.5/a", true, [], [], []⟩,
               ⟨2, some "10.5/b.v1", none, true, [], [], []⟩] "10.5/a"
      = Except.ok (some ⟨1, some "10.5/a.v1", some "10.5/a", true, [], [], []⟩) ∧
    ¬ (∀ d ∈ [(⟨1, some "10.5/a.v1", some "10.5/a", true, [], [], []⟩ : Deposit),
              (⟨2, some "10.5/b.v1", none, true, [], [], []⟩ : Deposit)],
        d.doi.isSome → d.conceptdoi.isSome) :=
  ⟨rfl, by decide⟩

/-- C10 amended: a deposition lacking a doi key is never the returned
match, and the precondition (every doi-carrying deposition also
carries conceptdoi) is sufficient for the scan to be total, returning
the first match. -/
theorem C10_find_scan_amended (deposits : List Deposit) (doi : String) :
    (∀ d, find_scan deposits doi = Except.ok (some d) → d.doi.isSome) ∧
    ((∀ d ∈ deposits, d.doi.isSome → d.conceptdoi.isSome) →
      find_scan deposits doi
        = Except.ok (deposits.find?
            (fun d => d.doi.isSome && decide (d.conceptdoi = some doi)))) := by
  constructor
  · intro d h
    induction deposits with
    | nil => simp [find_scan] at h
    | cons d0 rest ih =>
      simp only [find_scan] at h
      cases hdoi : d0.doi with
      | none =>
        rw [hdoi] at h
        simp only [Option.isNone_none, if_true] at h
        exact ih h
      | some s =>
        rw [hdoi] at h
        simp only [Option.isNone_some, Bool.false_eq_true, if_false] at h
        cases hcd : d0.conceptdoi with
        | none =>
          simp only [hcd] at h
          cases h
        | some c =>
          simp only [hcd] at h
          by_cases hc : c = doi
          · rw [if_pos hc] at h
            cases h
            simp [hdoi]
          · rw [if_neg hc] at h
            exact ih h
  · intro hpre
    induction deposits with
    | nil => simp [find_scan]
    | cons d0 rest ih =>
      have hpre0 := hpre d0 (List.mem_cons_self _ _)
      have hpreR : ∀ d ∈ rest, d.doi.isSome → d.conceptdoi.isSome :=
        fun d hd => hpre d (List.mem_cons_of_mem _ hd)
      simp only [find_scan]
      cases hdoi : d0.doi with
      | none =>
        have hp : (d0.doi.isSome && decide (d0.conceptdoi = some doi)) = false := by
          simp [hdoi]
        rw [List.find?_cons_of_neg _ (by simp [hp])]
        simp only [Option.isNone_none, if_true]
        exact ih hpreR
      | some s =>
        have hsome : d0.conceptdoi.isSome := hpre0 (by simp [hdoi])
        cases hcd : d0.conceptdoi with
        | none => rw [hcd] at hsome; simp at hsome
        | some c =>
          simp only [hdoi, Option.isNone_some, Bool.false_eq_true, if_false, hcd]
          by_cases hc : c = doi
          · rw [if_pos hc]
            rw [List.find?_cons_of_pos _ (by simp [hdoi, hcd, hc])]
          · rw [if_neg hc]
            rw [List.find?_cons_of_neg _ (by simp [hdoi, hcd, hc])]
            exact ih hpreR

/-- C10 witness: a concrete scan with the precondition satisfied. -/
theorem C10_find_scan_amended_witness :
    (⟨1, some "10.5/a.v1", some "10.5/a", true, [], [], []⟩ : Deposit).doi.isSome ∧
    find_scan [⟨1, some "10.5/a.v1", some "10.5/a", true, [], [], []⟩] "10.5/a"
      = Except.ok (some ⟨1, some "10.5/a.v1", some "10.5/a", true, [], [], []⟩) := by
  constructor
  · exact (C10_find_scan_amended [⟨1, some "10.5/a.v1", some "10.5/a", true, [], [], []⟩] "10.5/a").1
      ⟨1, some "10.5/a.v1", some "10.5/a", true, [], [], []⟩ rfl
  · exact Eq.trans
      ((C10_find_scan_amended [⟨1, some "10.5/a.v1", some "10.5/a", true, [], [], []⟩] "10.5/a").2
        (by decide)) rfl

/-- C1: the configured host honours the sandbox option and the
wrapper-resolved listing call goes to it, but the new-deposition post
and the metadata put are addressed to the literal production host
zenodo.org even when the sandbox host is configured. -/
theorem C1_sandbox_host_bug :
    set_host true = "sandbox.zenodo.org" ∧
    urlHost (resolveUrl (set_host true) "/api/deposit/depositions") = "sandbox.zenodo.org" ∧
    urlHost new_doi_url = "zenodo.org" ∧
    urlHost (upload_metadata_url 42) = "zenodo.org" ∧
    urlHost new_doi_url ≠ set_host true ∧
    urlHost (upload_metadata_url 42) ≠ set_host true :=
  ⟨rfl, by decide, by decide, by decide, by decide, by decide⟩

end ZenodoRelease

namespace ZenodoRelease

/-- C2 counterexample: the file-upload failure message carries no
response body and the new-version failure message carries no status
code, at concrete failing responses. -/
theorem C2_counterexample :
    (upload_archive_file ⟨7, none, none, false, [], [("bucket", "https://b")], []⟩
        "/tmp/a.zip" (fun _ => 400)).2
      = Except.error (Failure.troubleUploadingArtifact "/tmp/a.zip" 400) ∧
    Failure.bodyIn (Failure.troubleUploadingArtifact "/tmp/a.zip" 400) = none ∧
    (newversion_op "10.5/a" "https://nv" ⟨500, ⟨0, none, none, false, [], [], []⟩, "server error body"⟩).2
      = Except.error (Failure.cannotCreateNewVersion "10.5/a" "server error body") ∧
    Failure.statusIn (Failure.cannotCreateNewVersion "10.5/a" "server error body") = none :=
  ⟨rfl, rfl, rfl, rfl⟩

/-- C2 amended: every required API call terminates on a status outside
its accepted set; the listing, creation, metadata and publish messages
embed both the status code and the response body, but the file-upload
message embeds only the status code, and the new-version and
draft-fetch messages embed only the response body. -/
theorem C2_required_call_failures (s : Nat) (bt doi url archive : String)
    (ds : List Deposit) (d upload : Deposit) (b : String)
    (hs : statusOk2 s = false) (hp : statusOkPublish s = false)
    (hm : s ≠ 200) (hpl : getLink d.links "publish" = some url)
    (hb : getLink upload.links "bucket" = some b)
    (env : List (String × String)) (gfs : GFiles) (version today : String) :
    ((get_depositions_op ⟨s, ds, bt⟩).2 = Except.error (Failure.cannotQueryDepositions s bt) ∧
      Failure.statusIn (Failure.cannotQueryDepositions s bt) = some s ∧
      Failure.bodyIn (Failure.cannotQueryDepositions s bt) = some bt) ∧
    ((new_doi_op ⟨s, d, bt⟩).2 = Except.error (Failure.troubleNewUpload s bt) ∧
      Failure.statusIn (Failure.troubleNewUpload s bt) = some s ∧
      Failure.bodyIn (Failure.troubleNewUpload s bt) = some bt) ∧
    ((newversion_op doi url ⟨s, d, bt⟩).2 = Except.error (Failure.cannotCreateNewVersion doi bt) ∧
      Failure.statusIn (Failure.cannotCreateNewVersion doi bt) = none ∧
      Failure.bodyIn (Failure.cannotCreateNewVersion doi bt) = some bt) ∧
    ((draft_fetch_op doi url ⟨s, d, bt⟩).2 = Except.error (Failure.cannotCreateDraft doi bt) ∧
      Failure.statusIn (Failure.cannotCreateDraft doi bt) = none ∧
      Failure.bodyIn (Failure.cannotCreateDraft doi bt) = some bt) ∧
    ((upload_archive_file upload archive (fun _ => s)).2
        = Except.error (Failure.troubleUploadingArtifact archive s) ∧
      Failure.statusIn (Failure.troubleUploadingArtifact archive s) = some s ∧
      Failure.bodyIn (Failure.troubleUploadingArtifact archive s) = none) ∧
    ((upload_metadata_op upload none version today none none none none ⟨s, d, bt⟩).2
        = Except.error (Failure.troubleUploadingMetadata s bt) ∧
      Failure.statusIn (Failure.troubleUploadingMetadata s bt) = some s ∧
      Failure.bodyIn (Failure.troubleUploadingMetadata s bt) = some bt) ∧
    ((publish_op d ⟨s, d, bt⟩ env gfs).2 = Except.error (Failure.issuePublishing s bt) ∧
      Failure.statusIn (Failure.issuePublishing s bt) = some s ∧
      Failure.bodyIn (Failure.issuePublishing s bt) = some bt) := by
  refine ⟨⟨?_, rfl, rfl⟩, ⟨?_, rfl, rfl⟩, ⟨?_, rfl, rfl⟩, ⟨?_, rfl, rfl⟩,
    ⟨?_, rfl, rfl⟩, ⟨?_, rfl, rfl⟩, ⟨?_, rfl, rfl⟩⟩
  · simp [get_depositions_op, hs]
  · simp [new_doi_op, hs]
  · simp [newversion_op, hs]
  · simp [draft_fetch_op, hs]
  · simp [upload_archive_file, hb, hs]
  · simp [upload_metadata_op, compute_metadata, hm]
  · simp [publish_op, hpl, hp]

/-- C2 witness: the amended statement at a concrete failing status. -/
theorem C2_required_call_failures_witness :
    (newversion_op "10.5/a" "https://nv" ⟨500, ⟨0, none, none, false, [], [], []⟩, "oops"⟩).2
      = Except.error (Failure.cannotCreateNewVersion "10.5/a" "oops") ∧
    (get_depositions_op ⟨500, [], "oops"⟩).2 = Except.error (Failure.cannotQueryDepositions 500 "oops") := by
  have h := C2_required_call_failures 500 "oops" "10.5/a" "https://nv" "/tmp/a.zip" []
    ⟨0, none, none, false, [], [("publish", "https://nv")], []⟩
    ⟨0, none, none, false, [], [("bucket", "https://b")], []⟩ "https://b"
    (by decide) (by decide) (by decide) (by decide) (by decide) [] (fun _ => []) "1.0" "2026-10-12"
  exact ⟨h.2.2.1.1, h.1.1⟩

end ZenodoRelease

namespace ZenodoRelease

theorem appendLine_self (gfs : GFiles) (path line : String) :
    appendLine gfs path line path = gfs path ++ [line] := by
  simp [appendLine]

theorem appendLine_ne (gfs : GFiles) (path line q : String) (h : q ≠ path) :
    appendLine gfs path line q = gfs q := by
  simp [appendLine, h]

theorem write_links_ok (env : List (String × String)) (p1 p2 : String)
    (h1 : getLink env "GITHUB_ENV" = some p1)
    (h2 : getLink env "GITHUB_OUTPUT" = some p2)
    (hne : p1 ≠ p2) :
    ∀ (links : List (String × String)) (gfs : GFiles),
      ∃ g2, write_links env links gfs = Except.ok g2 ∧
        g2 p1 = gfs p1 ++ links.map (fun kv => kv.1 ++ "=" ++ kv.2) ∧
        g2 p2 = gfs p2 ++ links.map (fun kv => kv.1 ++ "=" ++ kv.2) := by
  intro links
  induction links with
  | nil => intro gfs; exact ⟨gfs, rfl, by simp, by simp⟩
  | cons kv rest ih =>
    rcases kv with ⟨k, v⟩
    intro gfs
    have hstep : set_env_and_output env gfs k v
        = Except.ok (appendLine (appendLine gfs p1 (k ++ "=" ++ v)) p2 (k ++ "=" ++ v)) := by
      simp [set_env_and_output, write_env_file, h1, h2]
    obtain ⟨g2, hw, ha, hb⟩ :=
      ih (appendLine (appendLine gfs p1 (k ++ "=" ++ v)) p2 (k ++ "=" ++ v))
    refine ⟨g2, ?_, ?_, ?_⟩
    · simp only [write_links, hstep]
      exact hw
    · rw [ha, appendLine_ne _ _ _ _ hne, appendLine_self]
      simp
    · rw [hb, appendLine_self]
      rw [appendLine_ne _ _ _ _ (Ne.symm hne)]
      simp

/-- C3 counterexample: with GITHUB_ENV unset (first conjunct) or with
only GITHUB_ENV set and GITHUB_OUTPUT unset (second conjunct), a
successful publish fails with the TypeError raised by opening None. -/
theorem C3_counterexample :
    (publish_op ⟨7, none, none, false, [], [("publish", "https://pub")], []⟩
        ⟨202, ⟨8, none, none, true, [], [("doi", "https://doi.org/x")], []⟩, ""⟩
        [] (fun _ => [])).2
      = Except.error Failure.typeErrorOpenNone ∧
    (publish_op ⟨7, none, none, false, [], [("publish", "https://pub")], []⟩
        ⟨202, ⟨8, none, none, true, [], [("doi", "https://doi.org/x")], []⟩, ""⟩
        [("GITHUB_ENV", "/tmp/env")] (fun _ => [])).2
      = Except.error Failure.typeErrorOpenNone :=
  ⟨rfl, rfl⟩

/-- C3 amended: when both GITHUB_ENV and GITHUB_OUTPUT are present and
name distinct paths, a successful publish appends one KEY=VALUE line
per links pair of the published record to each of the two files; when
either variable is absent the write raises and the invocation fails. -/
theorem C3_publish_links_written (env : List (String × String)) (p1 p2 purl : String)
    (gfs : GFiles) (data : Deposit) (resp : Resp Deposit)
    (h1 : getLink env "GITHUB_ENV" = some p1)
    (h2 : getLink env "GITHUB_OUTPUT" = some p2)
    (hne : p1 ≠ p2)
    (hpl : getLink data.links "publish" = some purl)
    (hst : statusOkPublish resp.status = true) :
    ∃ g2, publish_op data resp env gfs = ([ApiCall.publishPost purl], Except.ok g2) ∧
      g2 p1 = gfs p1 ++ resp.body.links.map (fun kv => kv.1 ++ "=" ++ kv.2) ∧
      g2 p2 = gfs p2 ++ resp.body.links.map (fun kv => kv.1 ++ "=" ++ kv.2) := by
  obtain ⟨g2, hw, ha, hb⟩ := write_links_ok env p1 p2 h1 h2 hne resp.body.links gfs
  refine ⟨g2, ?_, ha, hb⟩
  simp [publish_op, hpl, hst, hw]

/-- C3 witness: a concrete successful publish writing its one link to
both files. -/
theorem C3_publish_links_written_witness :
    (publish_op ⟨7, none, none, false, [], [("publish", "https://pub")], []⟩
        ⟨202, ⟨8, none, none, true, [], [("doi", "https://doi.org/x")], []⟩, ""⟩
        [("GITHUB_ENV", "/tmp/env"), ("GITHUB_OUTPUT", "/tmp/out")] (fun _ => [])).2.map
        (fun g => g "/tmp/env")
      = Except.ok ["doi=https://doi.org/x"] ∧
    (publish_op ⟨7, none, none, false, [], [("publish", "https://pub")], []⟩
        ⟨202, ⟨8, none, none, true, [], [("doi", "https://doi.org/x")], []⟩, ""⟩
        [("GITHUB_ENV", "/tmp/env"), ("GITHUB_OUTPUT", "/tmp/out")] (fun _ => [])).2.map
        (fun g => g "/tmp/out")
      = Except.ok ["doi=https://doi.org/x"] := by
  obtain ⟨g2, hw, ha, hb⟩ := C3_publish_links_written
    [("GITHUB_ENV", "/tmp/env"), ("GITHUB_OUTPUT", "/tmp/out")] "/tmp/env" "/tmp/out"
    "https://pub" (fun _ => [])
    ⟨7, none, none, false, [], [("publish", "https://pub")], []⟩
    ⟨202, ⟨8, none, none, true, [], [("doi", "https://doi.org/x")], []⟩, ""⟩
    (by decide) (by decide) (by decide) (by decide) (by decide)
  rw [hw]
  constructor
  · simpa [Except.map] using ha
  · simpa [Except.map] using hb

end ZenodoRelease

namespace ZenodoRelease

theorem clear_files_spec (delStatus : String → Nat) :
    ∀ files : List FileDesc, (∀ f ∈ files, (getLink f.links "self").isSome) →
      clear_files files delStatus
        = (files.map (fun f => ApiCall.deleteFile ((getLink f.links "self").getD "")),
           Except.ok ((files.filter
              (fun f => ! statusOkDelete (delStatus ((getLink f.links "self").getD "")))).map
              (fun f => f.filename))) := by
  intro files
  induction files with
  | nil => intro h; rfl
  | cons f rest ih =>
    intro h
    have hf := h f (List.mem_cons_self _ _)
    cases hgl : getLink f.links "self" with
    | none => rw [hgl] at hf; simp at hf
    | some u =>
      have hrest := ih (fun f2 hf2 => h f2 (List.mem_cons_of_mem _ hf2))
      by_cases hd : statusOkDelete (delStatus u)
      · simp [clear_files, hgl, hrest, hd, List.filter]
      · simp [clear_files, hgl, hrest, hd, List.filter]

theorem clear_files_trace_delete (delStatus : String → Nat) :
    ∀ files, ∀ c ∈ (clear_files files delStatus).1, ∃ u, c = ApiCall.deleteFile u := by
  intro files
  induction files with
  | nil => intro c hc; simp [clear_files] at hc
  | cons f rest ih =>
    intro c hc
    cases hgl : getLink f.links "self" with
    | none => simp [clear_files, hgl] at hc
    | some u =>
      rcases hcf : clear_files rest delStatus with ⟨tr, r⟩
      rw [show (clear_files (f :: rest) delStatus).1
            = ApiCall.deleteFile u :: tr by
          cases r <;> simp [clear_files, hgl, hcf]] at hc
      rcases List.mem_cons.mp hc with h1 | h2
      · exact ⟨u, h1⟩
      · exact ih c (by rw [hcf]; exact h2)

/-- C9: the deletion loop deletes every attached file via its links
self URL, returns successfully whatever the statuses are (a status
outside 200/204 only logs the filename), while every other API call of
the client is fatal on a status outside its accepted set. -/
theorem C9_file_deletion_only_non_fatal (files : List FileDesc) (delStatus : String → Nat)
    (h : ∀ f ∈ files, (getLink f.links "self").isSome)
    (s : Nat) (bt doi url archive version today : String)
    (ds : List Deposit) (d upload : Deposit) (b purl : String)
    (hs : statusOk2 s = false) (hp : statusOkPublish s = false) (hm : s ≠ 200)
    (hb : getLink upload.links "bucket" = some b)
    (hpl : getLink d.links "publish" = some purl)
    (env : List (String × String)) (gfs : GFiles) :
    clear_files files delStatus
      = (files.map (fun f => ApiCall.deleteFile ((getLink f.links "self").getD "")),
         Except.ok ((files.filter
            (fun f => ! statusOkDelete (delStatus ((getLink f.links "self").getD "")))).map
            (fun f => f.filename))) ∧
    (get_depositions_op ⟨s, ds, bt⟩).2 = Except.error (Failure.cannotQueryDepositions s bt) ∧
    (new_doi_op ⟨s, d, bt⟩).2 = Except.error (Failure.troubleNewUpload s bt) ∧
    (newversion_op doi url ⟨s, d, bt⟩).2 = Except.error (Failure.cannotCreateNewVersion doi bt) ∧
    (draft_fetch_op doi url ⟨s, d, bt⟩).2 = Except.error (Failure.cannotCreateDraft doi bt) ∧
    (upload_archive_file upload archive (fun _ => s)).2
      = Except.error (Failure.troubleUploadingArtifact archive s) ∧
    (upload_metadata_op upload none version today none none none none ⟨s, d, bt⟩).2
      = Except.error (Failure.troubleUploadingMetadata s bt) ∧
    (publish_op d ⟨s, d, bt⟩ env gfs).2 = Except.error (Failure.issuePublishing s bt) := by
  refine ⟨clear_files_spec delStatus files h, ?_, ?_, ?_, ?_, ?_, ?_, ?_⟩
  · simp [get_depositions_op, hs]
  · simp [new_doi_op, hs]
  · simp [newversion_op, hs]
  · simp [draft_fetch_op, hs]
  · simp [upload_archive_file, hb, hs]
  · simp [upload_metadata_op, compute_metadata, hm]
  · simp [publish_op, hpl, hp]

/-- C9 witness: one deletion accepted with 204, one answered 201 which
is merely logged, and the loop still succeeds. -/
theorem C9_file_deletion_only_non_fatal_witness :
    clear_files [⟨"a.zip", [("self", "https://s1")]⟩, ⟨"b.zip", [("self", "https://s2")]⟩]
        (fun u => if u = "https://s1" then 204 else 201)
      = ([ApiCall.deleteFile "https://s1", ApiCall.deleteFile "https://s2"],
         Except.ok ["b.zip"]) := by
  have h := C9_file_deletion_only_non_fatal
    [⟨"a.zip", [("self", "https://s1")]⟩, ⟨"b.zip", [("self", "https://s2")]⟩]
    (fun u => if u = "https://s1" then 204 else 201)
    (by decide) 400 "oops" "10.5/a" "https://nv" "/tmp/a.zip" "1.0" "2026-10-12" []
    ⟨0, none, none, false, [], [("publish", "https://pub")], []⟩
    ⟨0, none, none, false, [], [("bucket", "https://b")], []⟩ "https://b" "https://pub"
    (by decide) (by decide) (by decide) (by decide) (by decide) [] (fun _ => [])
  exact Eq.trans h.1 rfl

end ZenodoRelease

namespace ZenodoRelease

/-- C5 counterexample: an unsubmitted deposit is not returned as the
draft itself; its latest_draft link is fetched even in this branch and
the fetched record is returned instead. -/
theorem C5_counterexample :
    update_doi
        ⟨200, [⟨1, some "10.5/a.v1", some "10.5/a", false, [],
          [("latest_draft", "https://ld")], []⟩], ""⟩
        ⟨200, ⟨0, none, none, false, [], [], []⟩, ""⟩
        ⟨200, ⟨9, none, none, false, [], [], []⟩, ""⟩
        (fun _ => 204) "10.5/a"
      = ([ApiCall.listDepositions, ApiCall.getDraft "https://ld"],
         Except.ok ⟨9, none, none, false, [], [], []⟩) ∧
    (⟨9, none, none, false, [], [], []⟩ : Deposit)
      ≠ ⟨1, some "10.5/a.v1", some "10.5/a", false, [], [("latest_draft", "https://ld")], []⟩ :=
  ⟨rfl, by decide⟩

/-- C5 amended: when the matched deposit is unsubmitted no new-version
call is made but its latest_draft link is still fetched and the fetch
result is the draft; when it is submitted the newversion link is
posted and the latest_draft link of the new-version response is
fetched; the remaining trace consists of file deletions only. -/
theorem C5_update_doi_branches (listResp : Resp (List Deposit)) (nvResp draftResp : Resp Deposit)
    (delStatus : String → Nat) (doi ld nv : String) (target : Deposit)
    (tr3 : List ApiCall) (logged : List String)
    (hls : statusOk2 listResp.status = true)
    (hfind : find_scan listResp.body doi = Except.ok (some target))
    (hds : statusOk2 draftResp.status = true)
    (hclear : clear_files draftResp.body.files delStatus = (tr3, Except.ok logged)) :
    (target.submitted = false →
      getLink target.links "latest_draft" = some ld →
      update_doi listResp nvResp draftResp delStatus doi
        = ([ApiCall.listDepositions, ApiCall.getDraft ld] ++ tr3, Except.ok draftResp.body)) ∧
    (target.submitted = true →
      getLink target.links "newversion" = some nv →
      statusOk2 nvResp.status = true →
      getLink nvResp.body.links "latest_draft" = some ld →
      update_doi listResp nvResp draftResp delStatus doi
        = ([ApiCall.listDepositions, ApiCall.newVersion nv, ApiCall.getDraft ld] ++ tr3,
           Except.ok draftResp.body)) ∧
    (∀ c ∈ tr3, c.isNewVersionCall = false ∧ c.isUpload = false) := by
  refine ⟨?_, ?_, ?_⟩
  · intro hsub hld
    simp [update_doi, get_depositions_op, draft_fetch_op, hls, hfind, hsub, hld, hds, hclear]
  · intro hsub hnv hnvs hld
    simp [update_doi, get_depositions_op, newversion_op, draft_fetch_op,
      hls, hfind, hsub, hnv, hnvs, hld, hds, hclear]
  · intro c hc
    have hmem : c ∈ (clear_files draftResp.body.files delStatus).1 := by
      rw [hclear]; exact hc
    obtain ⟨u, rfl⟩ := clear_files_trace_delete delStatus draftResp.body.files c hmem
    exact ⟨rfl, rfl⟩

/-- C5 witness: the unsubmitted branch applied at a concrete listing. -/
theorem C5_update_doi_branches_witness :
    update_doi
        ⟨200, [⟨1, some "10.5/a.v1", some "10.5/a", false, [],
          [("latest_draft", "https://ld2")], []⟩], ""⟩
        ⟨200, ⟨0, none, none, false, [], [], []⟩, ""⟩
        ⟨201, ⟨9, none, none, false, [], [], []⟩, ""⟩
        (fun _ => 200) "10.5/a"
      = ([ApiCall.listDepositions, ApiCall.getDraft "https://ld2"],
         Except.ok ⟨9, none, none, false, [], [], []⟩) := by
  have h := C5_update_doi_branches
    ⟨200, [⟨1, some "10.5/a.v1", some "10.5/a", false, [],
      [("latest_draft", "https://ld2")], []⟩], ""⟩
    ⟨200, ⟨0, none, none, false, [], [], []⟩, ""⟩
    ⟨201, ⟨9, none, none, false, [], [], []⟩, ""⟩
    (fun _ => 200) "10.5/a" "https://ld2" "https://nv"
    ⟨1, some "10.5/a.v1", some "10.5/a", false, [], [("latest_draft", "https://ld2")], []⟩
    [] [] (by decide) rfl (by decide) rfl
  exact Eq.trans (h.1 rfl rfl) rfl

/-- C7: a conceptdoi matching no deposition terminates the invocation
with the cannot-find-deposit failure after the listing call alone: the
trace contains no file upload and no publish call. -/
theorem C7_missing_deposit_aborts (w : World) (gfs : GFiles)
    (archive version doi : String) (template : Option Metadata)
    (html_url title description description_file : Option String)
    (hex : w.pathExists archive = true)
    (hls : statusOk2 w.listResp.status = true)
    (hfind : find_scan w.listResp.body doi = Except.ok none) :
    upload_archive_cmd w gfs archive version template (some doi)
        html_url title description description_file
      = ([ApiCall.listDepositions], Except.error (Failure.cannotFindDeposit doi)) ∧
    List.filter ApiCall.isUpload [ApiCall.listDepositions] = [] ∧
    List.filter ApiCall.isPublishCall [ApiCall.listDepositions] = [] := by
  refine ⟨?_, rfl, rfl⟩
  simp [upload_archive_cmd, obtain_draft, update_doi, get_depositions_op, hex, hls, hfind]

/-- C7 witness: a concrete empty listing. -/
theorem C7_missing_deposit_aborts_witness :
    upload_archive_cmd
        ⟨fun _ => true, fun _ => ["/tmp/a.zip"], ⟨200, [], ""⟩,
          ⟨200, ⟨0, none, none, false, [], [], []⟩, ""⟩,
          ⟨200, ⟨0, none, none, false, [], [], []⟩, ""⟩,
          fun _ => 204, fun _ => 200,
          ⟨200, ⟨0, none, none, false, [], [], []⟩, ""⟩,
          ⟨200, ⟨0, none, none, false, [], [], []⟩, ""⟩,
          ⟨200, ⟨0, none, none, false, [], [], []⟩, ""⟩,
          [], "2026-10-12"⟩
        (fun _ => []) "/tmp/a.zip" "1.0" none (some "10.5/a") none none none none
      = ([ApiCall.listDepositions], Except.error (Failure.cannotFindDeposit "10.5/a")) := by
  have h := C7_missing_deposit_aborts
    ⟨fun _ => true, fun _ => ["/tmp/a.zip"], ⟨200, [], ""⟩,
      ⟨200, ⟨0, none, none, false, [], [], []⟩, ""⟩,
      ⟨200, ⟨0, none, none, false, [], [], []⟩, ""⟩,
      fun _ => 204, fun _ => 200,
      ⟨200, ⟨0, none, none, false, [], [], []⟩, ""⟩,
      ⟨200, ⟨0, none, none, false, [], [], []⟩, ""⟩,
      ⟨200, ⟨0, none, none, false, [], [], []⟩, ""⟩,
      [], "2026-10-12"⟩
    (fun _ => []) "/tmp/a.zip" "1.0" "10.5/a" none none none none none
    rfl (by decide) rfl
  exact h.1

end ZenodoRelease

namespace ZenodoRelease

theorem uploadedPaths_append (t1 t2 : List ApiCall) :
    uploadedPaths (t1 ++ t2) = uploadedPaths t1 ++ uploadedPaths t2 := by
  simp [uploadedPaths]

theorem uploadedPaths_eq_nil (tr : List ApiCall) (h : ∀ c ∈ tr, c.isUpload = false) :
    uploadedPaths tr = [] := by
  induction tr with
  | nil => rfl
  | cons c rest ih =>
    have hc := h c (List.mem_cons_self _ _)
    have hr := ih (fun c2 h2 => h c2 (List.mem_cons_of_mem _ h2))
    cases c <;> simp [uploadedPaths, ApiCall.isUpload] at hc ⊢ <;> simpa [uploadedPaths] using hr

theorem clear_files_no_upload (files : List FileDesc) (delStatus : String → Nat) :
    uploadedPaths (clear_files files delStatus).1 = [] := by
  apply uploadedPaths_eq_nil
  intro c hc
  obtain ⟨u, rfl⟩ := clear_files_trace_delete delStatus files c hc
  rfl

theorem update_doi_no_upload (listResp : Resp (List Deposit)) (nvResp draftResp : Resp Deposit)
    (delStatus : String → Nat) (doi : String) :
    uploadedPaths (update_doi listResp nvResp draftResp delStatus doi).1 = [] := by
  cases hls : statusOk2 listResp.status with
  | false => simp [update_doi, get_depositions_op, hls, uploadedPaths]
  | true =>
    cases hf : find_scan listResp.body doi with
    | error e => simp [update_doi, get_depositions_op, hls, hf, uploadedPaths]
    | ok od =>
      cases od with
      | none => simp [update_doi, get_depositions_op, hls, hf, uploadedPaths]
      | some target =>
        have hclr : ∀ files : List FileDesc, ∀ tr3 : List ApiCall,
            ∀ r3 : Except Failure (List String),
            clear_files files delStatus = (tr3, r3) → uploadedPaths tr3 = [] := by
          intro files tr3 r3 hcf
          have hcn := clear_files_no_upload files delStatus
          rw [hcf] at hcn
          exact hcn
        cases hsub : target.submitted with
        | false =>
          cases hld : getLink target.links "latest_draft" with
          | none => simp [update_doi, get_depositions_op, hls, hf, hsub, hld, uploadedPaths]
          | some ld =>
            cases hds : statusOk2 draftResp.status with
            | false =>
              simp [update_doi, get_depositions_op, draft_fetch_op, hls, hf, hsub, hld, hds,
                uploadedPaths]
            | true =>
              rcases hcf : clear_files draftResp.body.files delStatus with ⟨tr3, r3⟩
              have h3 := hclr _ _ _ hcf
              simp only [uploadedPaths, List.filterMap_eq_nil_iff] at h3
              cases r3 <;>
                simp [update_doi, get_depositions_op, draft_fetch_op, hls, hf, hsub, hld, hds,
                  hcf, uploadedPaths_append, uploadedPaths, h3] <;>
                exact h3
        | true =>
          cases hnv : getLink target.links "newversion" with
          | none => simp [update_doi, get_depositions_op, hls, hf, hsub, hnv, uploadedPaths]
          | some nv =>
            cases hnvs : statusOk2 nvResp.status with
            | false =>
              simp [update_doi, get_depositions_op, newversion_op, hls, hf, hsub, hnv, hnvs,
                uploadedPaths]
            | true =>
              cases hld : getLink nvResp.body.links "latest_draft" with
              | none =>
                simp [update_doi, get_depositions_op, newversion_op, hls, hf, hsub, hnv, hnvs,
                  hld, uploadedPaths]
              | some ld =>
                cases hds : statusOk2 draftResp.status with
                | false =>
                  simp [update_doi, get_depositions_op, newversion_op, draft_fetch_op, hls, hf,
                    hsub, hnv, hnvs, hld, hds, uploadedPaths]
                | true =>
                  rcases hcf : clear_files draftResp.body.files delStatus with ⟨tr3, r3⟩
                  have h3 := hclr _ _ _ hcf
                  simp only [uploadedPaths, List.filterMap_eq_nil_iff] at h3
                  cases r3 <;>
                    simp [update_doi, get_depositions_op, newversion_op, draft_fetch_op, hls,
                      hf, hsub, hnv, hnvs, hld, hds, hcf, uploadedPaths_append, uploadedPaths, h3] <;>
                    exact h3

theorem obtain_draft_no_upload (w : World) (template : Option Metadata)
    (doi : Option String) :
    uploadedPaths (obtain_draft w template doi).1 = [] := by
  cases doi with
  | some d => simpa [obtain_draft] using update_doi_no_upload w.listResp w.nvResp w.draftResp w.delStatus d
  | none =>
    cases template with
    | none => simp [obtain_draft, uploadedPaths]
    | some t =>
      cases hns : statusOk2 w.newDoiResp.status <;>
        simp [obtain_draft, new_doi_op, hns, uploadedPaths]

theorem upload_metadata_op_no_upload (upload : Deposit) (template : Option Metadata)
    (version today : String) (html_url title description description_file : Option String)
    (resp : Resp Deposit) :
    uploadedPaths (upload_metadata_op upload template version today
      html_url title description description_file resp).1 = [] := by
  cases hcm : compute_metadata upload.metadata template version today
      html_url title description description_file with
  | error e => simp [upload_metadata_op, hcm, uploadedPaths]
  | ok m =>
    cases hst : decide (resp.status = 200) <;>
      simp [upload_metadata_op, hcm, uploadedPaths]

theorem publish_op_no_upload (data : Deposit) (resp : Resp Deposit)
    (env : List (String × String)) (gfs : GFiles) :
    uploadedPaths (publish_op data resp env gfs).1 = [] := by
  cases hg : getLink data.links "publish" <;> simp [publish_op, hg, uploadedPaths]

theorem upload_all_ok (upload : Deposit) (b : String) (uploadStatus : String → Nat)
    (hb : getLink upload.links "bucket" = some b)
    (hst : ∀ u : String, statusOk2 (uploadStatus u) = true) :
    ∀ paths : List String,
      upload_all upload paths uploadStatus
        = (paths.map (fun p => ApiCall.putFile (b ++ "/" ++ basename p) p), Except.ok ()) := by
  intro paths
  induction paths with
  | nil => rfl
  | cons p rest ih => simp [upload_all, upload_archive_file, hb, hst, ih]

theorem uploadedPaths_putFiles (f : String → String) (paths : List String) :
    uploadedPaths (paths.map (fun p => ApiCall.putFile (f p) p)) = paths := by
  induction paths with
  | nil => rfl
  | cons p rest ih => simp [uploadedPaths] at ih ⊢; exact ih

end ZenodoRelease

namespace ZenodoRelease

/-- C4 counterexample: the world's glob matches one file, but because
the literal archive argument does not exist as a path the invocation
terminates before any upload: not exactly the matched files are
uploaded. -/
theorem C4_counterexample :
    upload_archive_cmd
        ⟨fun _ => false, fun _ => ["/tmp/a.zip"], ⟨200, [], ""⟩,
          ⟨200, ⟨0, none, none, false, [], [], []⟩, ""⟩,
          ⟨200, ⟨0, none, none, false, [], [], []⟩, ""⟩,
          fun _ => 204, fun _ => 200,
          ⟨200, ⟨0, none, none, false, [], [], []⟩, ""⟩,
          ⟨200, ⟨0, none, none, false, [], [], []⟩, ""⟩,
          ⟨200, ⟨0, none, none, false, [], [], []⟩, ""⟩,
          [], "2026-10-12"⟩
        (fun _ => []) "*.zip" "1.0" (some []) none none none none none
      = ([], Except.error (Failure.archiveMissing "*.zip")) ∧
    (⟨fun _ => false, fun _ => ["/tmp/a.zip"], ⟨200, [], ""⟩,
        ⟨200, ⟨0, none, none, false, [], [], []⟩, ""⟩,
        ⟨200, ⟨0, none, none, false, [], [], []⟩, ""⟩,
        fun _ => 204, fun _ => 200,
        ⟨200, ⟨0, none, none, false, [], [], []⟩, ""⟩,
        ⟨200, ⟨0, none, none, false, [], [], []⟩, ""⟩,
        ⟨200, ⟨0, none, none, false, [], [], []⟩, ""⟩,
        [], "2026-10-12"⟩ : World).glob "*.zip" = ["/tmp/a.zip"] :=
  ⟨rfl, rfl⟩

/-- C4 amended: when the literal archive path does not exist the
invocation terminates with the archive-missing failure before any API
call; when it exists and a draft is obtained, the uploaded paths are
exactly the glob matches, provided the draft carries a bucket link and
the bucket accepts the uploads. -/
theorem C4_glob_upload (w : World) (gfs : GFiles) (archive version b : String)
    (template : Option Metadata)
    (doi html_url title description description_file : Option String)
    (tr1 : List ApiCall) (upload : Deposit) :
    (w.pathExists archive = false →
      upload_archive_cmd w gfs archive version template doi html_url title
          description description_file
        = ([], Except.error (Failure.archiveMissing archive))) ∧
    (w.pathExists archive = true →
      obtain_draft w template doi = (tr1, Except.ok upload) →
      getLink upload.links "bucket" = some b →
      (∀ u : String, statusOk2 (w.uploadStatus u) = true) →
      uploadedPaths (upload_archive_cmd w gfs archive version template doi html_url title
          description description_file).1
        = w.glob archive) := by
  constructor
  · intro hex
    simp [upload_archive_cmd, hex]
  · intro hex hdraft hb hst
    have h1 : uploadedPaths tr1 = [] := by
      have h0 := obtain_draft_no_upload w template doi
      rw [hdraft] at h0
      exact h0
    have hup := upload_all_ok upload b w.uploadStatus hb hst (w.glob archive)
    rcases hmo : upload_metadata_op upload template version w.today html_url title description
        description_file w.metaResp with ⟨tr3, r3⟩
    have h3 : uploadedPaths tr3 = [] := by
      have h0 := upload_metadata_op_no_upload upload template version w.today html_url title
        description description_file w.metaResp
      rw [hmo] at h0
      exact h0
    cases r3 with
    | error e =>
      simp [upload_archive_cmd, hex, hdraft, hup, hmo, uploadedPaths_append, h1, h3,
        uploadedPaths_putFiles]
    | ok data =>
      rcases hpo : publish_op data w.pubResp w.env gfs with ⟨tr4, r4⟩
      have h4 : uploadedPaths tr4 = [] := by
        have h0 := publish_op_no_upload data w.pubResp w.env gfs
        rw [hpo] at h0
        exact h0
      simp [upload_archive_cmd, hex, hdraft, hup, hmo, hpo, uploadedPaths_append, h1, h3, h4,
        uploadedPaths_putFiles]

/-- C4 witness: a concrete invocation uploading exactly the one glob
match. -/
theorem C4_glob_upload_witness :
    uploadedPaths (upload_archive_cmd
        ⟨fun _ => true, fun _ => ["/tmp/release.zip"], ⟨200, [], ""⟩,
          ⟨200, ⟨0, none, none, false, [], [], []⟩, ""⟩,
          ⟨200, ⟨0, none, none, false, [], [], []⟩, ""⟩,
          fun _ => 204, fun _ => 200,
          ⟨201, ⟨5, none, none, false, [], [("bucket", "https://b")], []⟩, ""⟩,
          ⟨200, ⟨0, none, none, false, [], [], []⟩, ""⟩,
          ⟨200, ⟨0, none, none, false, [], [], []⟩, ""⟩,
          [], "2026-10-12"⟩
        (fun _ => []) "/tmp/release.zip" "1.0" (some []) none none none none none).1
      = ["/tmp/release.zip"] := by
  have h := C4_glob_upload
    ⟨fun _ => true, fun _ => ["/tmp/release.zip"], ⟨200, [], ""⟩,
      ⟨200, ⟨0, none, none, false, [], [], []⟩, ""⟩,
      ⟨200, ⟨0, none, none, false, [], [], []⟩, ""⟩,
      fun _ => 204, fun _ => 200,
      ⟨201, ⟨5, none, none, false, [], [("bucket", "https://b")], []⟩, ""⟩,
      ⟨200, ⟨0, none, none, false, [], [], []⟩, ""⟩,
      ⟨200, ⟨0, none, none, false, [], [], []⟩, ""⟩,
      [], "2026-10-12"⟩
    (fun _ => []) "/tmp/release.zip" "1.0" "https://b" (some [])
    none none none none none [ApiCall.newDeposition new_doi_url]
    ⟨5, none, none, false, [], [("bucket", "https://b")], []⟩
  exact Eq.trans (h.2 rfl rfl rfl (fun u => rfl)) rfl

end ZenodoRelease
